import Mathlib

/-!
Shallow embedding of the waku-dispatcher `Dispatcher` class
(src/unnamed/part_002, the current dispatcher source) together with the
parts of the older `src/src/dispatcher.ts` that agree with it.

External collaborators (the waku transport, the crypto primitives, JSON
serialisation and the ethers signature recovery) are modelled as plain
function parameters collected in an `Env` record, following the interface
contract of spec section 6.  Byte arrays are `List Nat`; the opaque
reference identity of a JS `Uint8Array` key and of a JS callback closure
is an explicit `Nat` tag.  Keccak hashes are opaque values produced by the
`Env.keccak256` parameter.  Fallible collaborator calls return `Option`;
a JS exception that escapes to the caller of a method is an
`Except.error`.
-/

namespace WakuDispatcher

/-- Byte arrays (JS `Uint8Array`), bytes as natural numbers. -/
abbrev Bytes := List Nat

/-- Source `enum KeyType`, including the `Asymetric` spelling. -/
inductive KeyType
  | Symmetric
  | Asymetric
  deriving DecidableEq, Repr

/-- Source `type Key = \x7b key: Uint8Array, type: KeyType \x7d`.
The `key` field is the opaque reference identity of the `Uint8Array`
(JS `==` on two `Uint8Array`s compares references, so an opaque tag with
decidable equality is the faithful rendering). -/
structure Key where
  key : Nat
  type : KeyType
  deriving DecidableEq, Repr

/-- A JS callback closure: `ref` is its reference identity, `source` is
what `callback.toString()` returns (its source text).  Two distinct
closures can share the same source text. -/
structure Callback where
  ref : Nat
  source : String
  deriving DecidableEq, Repr

/-- Source `type DispachInfo` (keeping the source spelling). -/
structure DispachInfo where
  callback : Callback
  verifySender : Bool
  acceptOnlyEncrypted : Bool
  contentTopic : String
  storeLocally : Bool
  deriving DecidableEq, Repr

/-- Source `type IDispatchMessage`.  `payload` is an arbitrary JS value,
modelled as an opaque tag; `timestamp` is epoch milliseconds. -/
structure IDispatchMessage where
  type : String
  payload : Nat
  timestamp : Option Nat
  signature : Option String
  signer : Option String
  deriving DecidableEq, Repr

/-- The transport message (`IDecodedMessage` of the waku SDK) as consumed
by `dispatch`: content topic, raw payload bytes, optional timestamp
(epoch milliseconds of the `Date`), pubsub topic and the ephemeral flag.
The `meta` and `rateLimitProof` fields are only copied verbatim into
store writes and are omitted. -/
structure IDecodedMessage where
  contentTopic : String
  payload : Bytes
  timestamp : Option Nat
  pubsubTopic : String
  ephemeral : Bool
  deriving DecidableEq, Repr

/-- Source `type DispatchMetadata`. -/
structure DispatchMetadata where
  encrypted : Bool
  timestamp : Option Nat
  fromStore : Bool
  contentTopic : String
  ephemeral : Bool
  deriving DecidableEq, Repr

/-- One callback invocation performed by `dispatch`: which closure ran and
with which arguments `(payload, signer, meta)`. -/
structure Invocation where
  cbRef : Nat
  payload : Nat
  signer : Option String
  meta : DispatchMetadata
  deriving DecidableEq, Repr

/-- Source `enum Direction` of storage/store. -/
inductive Direction
  | In
  | Out
  deriving DecidableEq, Repr

/-- One `store.set` call issued by `dispatch` (a `StoreMsg`: direction,
the copied message fields and the transport hash). -/
structure StoreMsg where
  direction : Direction
  contentTopic : String
  ephemeral : Bool
  payload : Bytes
  pubsubTopic : String
  timestamp : Option Nat
  hash : Nat
  deriving DecidableEq, Repr

/-- The mutable fields of the `Dispatcher` class that the modelled
methods read or write.  Subscription handles and timers are not modelled
(no claim is about them). -/
structure DState where
  contentTopic : String
  mapping : List (String × List DispachInfo)
  decryptionKeys : List Key
  autoEncrypt : Bool
  autoEncryptKeyId : Option Nat
  msgHashes : List Nat
  lastDeliveredTimestamp : Option Nat
  running : Bool
  deriving DecidableEq, Repr

/-- The external collaborators, per spec section 6: keccak over bytes,
UTF-8 encoding, the ecies and symmetric ciphers (decryption may fail,
signalling "not decryptable with this key"), JSON parse of a payload into
an `IDispatchMessage` (failure is a thrown parse error, hence `Option`),
canonical JSON stringification, `ethers.verifyMessage` signature recovery
and the current wall clock. -/
structure Env where
  keccak256 : Bytes → Nat
  toUtf8Bytes : String → Bytes
  decryptEcies : Nat → Bytes → Option Bytes
  decryptSymmetric : Bytes → Nat → Option Bytes
  encryptEcies : Nat → Bytes → Bytes
  encryptSymmetric : Bytes → Nat → Bytes
  parseDispatchMessage : Bytes → Option IDispatchMessage
  stringifyMessage : IDispatchMessage → String
  verifyMessage : String → String → String
  now : Nat

/-- A JS exception escaping to the caller of a method. -/
inductive JsError
  | typeError
  deriving DecidableEq, Repr

/-- Result of a normally returning `dispatch` call: the new dispatcher
state, the callback invocations made (in order) and the `store.set`
calls issued (in order). -/
structure DispatchResult where
  state : DState
  calls : List Invocation
  puts : List StoreMsg
  deriving DecidableEq, Repr

/-- `Map.get` over the assoc-list model of `this.mapping`. -/
def mapGet (m : List (String × List DispachInfo)) (k : String) :
    Option (List DispachInfo) :=
  match m with
  | [] => none
  | (k2, v) :: rest => if k2 = k then some v else mapGet rest k

/-- `Map.set` over the assoc-list model of `this.mapping`. -/
def mapSet (m : List (String × List DispachInfo)) (k : String)
    (v : List DispachInfo) : List (String × List DispachInfo) :=
  match m with
  | [] => [(k, v)]
  | (k2, v2) :: rest =>
    if k2 = k then (k, v) :: rest else (k2, v2) :: mapSet rest k v

/-- Source method `on` (part_002 lines 140-153).  Optional JS parameters
are `Option`s: `!!verifySender` maps `undefined` to `false`,
`contentTopic ? contentTopic : this.contentTopic` also replaces the empty
string (JS falsiness), `storeLocally === undefined ? true : storeLocally`
keeps an explicit `false`.  Deduplication compares
`di.callback.toString() == newDispatchInfo.callback.toString()`, i.e. the
source text of the closures, not their identity. -/
def «on» (s : DState) (typ : String) (callback : Callback)
    (verifySender : Option Bool) (acceptOnlyEcrypted : Option Bool)
    (contentTopic : Option String) (storeLocally : Option Bool) : DState :=
  let mapping0 :=
    match mapGet s.mapping typ with
    | none => mapSet s.mapping typ []
    | some _ => s.mapping
  let dispatchInfos := (mapGet mapping0 typ).getD []
  let newDispatchInfo : DispachInfo :=
    { callback := callback
      verifySender := verifySender.getD false
      acceptOnlyEncrypted := acceptOnlyEcrypted.getD false
      contentTopic :=
        match contentTopic with
        | some c => if c = "" then s.contentTopic else c
        | none => s.contentTopic
      storeLocally := storeLocally.getD true }
  if (dispatchInfos.find? fun di =>
      decide (di.callback.source = newDispatchInfo.callback.source)).isSome then
    { s with mapping := mapping0 }
  else
    { s with mapping := mapSet mapping0 typ (dispatchInfos ++ [newDispatchInfo]) }

/-- Source method `stop` (part_002 lines 196-205): stops the heartbeat and
the subscription (unmodelled), empties `msgHashes` and clears `mapping`.
It does not touch `decryptionKeys`. -/
def stop (s : DState) : DState :=
  { s with running := false, msgHashes := [], mapping := [] }

/-- Source method `registerKey` (part_002 lines 218-226).  The existence
check compares `k.key == key && k.type == type`; `==` on `Uint8Array`s is
reference equality, modelled by the opaque key tags.  When the key is
new and `autoEncrypt` is set, the auto-encrypt id points at the freshly
pushed key. -/
def registerKey (s : DState) (key : Nat) (type : KeyType)
    (autoEncrypt : Bool) : DState :=
  if (s.decryptionKeys.find? fun k =>
      decide (k.key = key ∧ k.type = type)).isSome then s
  else
    let keys := s.decryptionKeys ++ [{ key := key, type := type }]
    if autoEncrypt then
      { s with decryptionKeys := keys, autoEncrypt := true,
               autoEncryptKeyId := some (keys.length - 1) }
    else
      { s with decryptionKeys := keys }

/-- Source method `checkDuplicate` (part_002 lines 228-239).
`indexOf(hash) >= 0` is membership.  When the cache holds more than 2000
entries the source evaluates
`this.msgHashes.slice(hash.length - 500, hash.length)` and discards the
result; `Array.prototype.slice` does not mutate its receiver, so no entry
is ever removed and the branch is a no-op.  Afterwards the hash is
pushed. -/
def checkDuplicate (msgHashes : List Nat) (hash : Nat) : Bool × List Nat :=
  if hash ∈ msgHashes then (true, msgHashes)
  else (false, msgHashes ++ [hash])

/-- One decryption attempt with one registered key, dispatching on the
key kind exactly as the source loop body does:
`decrypt(key.key, payload)` for `Asymetric`,
`decryptSymmetric(payload, key.key)` for `Symmetric`. -/
def tryDecryptKey (env : Env) (k : Key) (payload : Bytes) : Option Bytes :=
  match k.type with
  | KeyType.Asymetric => env.decryptEcies k.key payload
  | KeyType.Symmetric => env.decryptSymmetric payload k.key

/-- Source private method `decrypt` (part_002 lines 241-264): try the
registered keys in order; each failure is caught and the loop continues;
the first success replaces the payload, sets `encrypted` and breaks; if
no key succeeds (also with no keys at all) the original payload is
returned with `encrypted = false`.  The method is total: no error
propagates out of it. -/
def decrypt (env : Env) : List Key → Bytes → Bytes × Bool
  | [], payload => (payload, false)
  | k :: rest, payload =>
    match tryDecryptKey env k payload with
    | some buffer => (buffer, true)
    | none => decrypt env rest payload

/-- Source private method `verifySender` (part_002 lines 266-279).
`if (!dmsg.signature)` is JS falsiness: it rejects both a missing
signature and the empty string.  Otherwise the message is re-stringified
with `signature: undefined` and `ethers.verifyMessage` recovers the
signer, which must equal the claimed `dmsg.signer` (a recovered string
never equals a missing signer). -/
def verifySender (env : Env) (dmsg : IDispatchMessage) : Bool :=
  match dmsg.signature with
  | none => false
  | some sig =>
    if sig = "" then false
    else
      let dmsgToVerify := { dmsg with signature := none }
      let signer := env.verifyMessage (env.stringifyMessage dmsgToVerify) sig
      if some signer ≠ dmsg.signer then false else true

/-- The transport-level hash computed at the top of `dispatch`
(part_002 lines 311-312): keccak256 of the UTF-8 bytes of the content
topic, the raw payload, the timestamp rendered as a string and the
pubsub topic. -/
def transportHash (env : Env) (msg : IDecodedMessage) (t : Nat) : Nat :=
  env.keccak256 (env.toUtf8Bytes msg.contentTopic ++ msg.payload ++
    env.toUtf8Bytes (toString t) ++ env.toUtf8Bytes msg.pubsubTopic)

/-- The registration loop of `dispatch` (part_002 lines 332-367): for each
`DispachInfo` of the decoded type, skip when encryption is required but
absent, when the content topic differs, or when sender verification is
requested and fails; otherwise update `lastDeliveredTimestamp`
(`getTime() || Date.now()`, so a zero timestamp falls back to the clock),
issue the `store.set` unless the message is ephemeral, is a replay
(`fromStorage`) or the registration opted out, and invoke the
callback. -/
def dispatchLoop (env : Env) (msg : IDecodedMessage) (t : Nat)
    (fromStorage : Bool) (hash : Nat) (dmsg : IDispatchMessage)
    (encrypted : Bool) : List DispachInfo → DState → DispatchResult
  | [], s => { state := s, calls := [], puts := [] }
  | di :: rest, s =>
    if di.acceptOnlyEncrypted && !encrypted then
      dispatchLoop env msg t fromStorage hash dmsg encrypted rest s
    else if di.contentTopic ≠ msg.contentTopic then
      dispatchLoop env msg t fromStorage hash dmsg encrypted rest s
    else if di.verifySender && !(verifySender env dmsg) then
      dispatchLoop env msg t fromStorage hash dmsg encrypted rest s
    else
      let delivered := if t = 0 then env.now else t
      let s2 := { s with lastDeliveredTimestamp := some delivered }
      let puts : List StoreMsg :=
        if !msg.ephemeral && !fromStorage && di.storeLocally then
          [{ direction := Direction.In, contentTopic := msg.contentTopic,
             ephemeral := msg.ephemeral, payload := msg.payload,
             pubsubTopic := msg.pubsubTopic, timestamp := msg.timestamp,
             hash := hash }]
        else []
      let inv : Invocation :=
        { cbRef := di.callback.ref, payload := dmsg.payload,
          signer := dmsg.signer,
          meta := { encrypted := encrypted, fromStore := fromStorage,
                    timestamp := dmsg.timestamp, ephemeral := msg.ephemeral,
                    contentTopic := msg.contentTopic } }
      let r := dispatchLoop env msg t fromStorage hash dmsg encrypted rest s2
      { state := r.state, calls := inv :: r.calls, puts := puts ++ r.puts }

/-- Source method `dispatch` (part_002 lines 308-371).
`msg.timestamp!.toString()` is evaluated before the guarded `try` block,
so a missing transport timestamp throws a `TypeError` to the caller with
the state untouched.  Otherwise the transport hash is computed and
`checkDuplicate` both checks and records it; a duplicate returns at once.
Inside the `try`: multi-key decryption (total), JSON parse (a parse
failure is caught and logged), the JS-falsy timestamp default
(`!dmsg.timestamp` replaces both `undefined` and `0` with the transport
timestamp), the type lookup and the registration loop. -/
def dispatch (env : Env) (msg : IDecodedMessage) (fromStorage : Bool)
    (s : DState) : Except JsError DispatchResult :=
  match msg.timestamp with
  | none => Except.error JsError.typeError
  | some t =>
    let hash := transportHash env msg t
    let cd := checkDuplicate s.msgHashes hash
    let s1 := { s with msgHashes := cd.2 }
    if cd.1 then
      Except.ok { state := s1, calls := [], puts := [] }
    else
      let pd := decrypt env s1.decryptionKeys msg.payload
      match env.parseDispatchMessage pd.1 with
      | none => Except.ok { state := s1, calls := [], puts := [] }
      | some dmsg0 =>
        let dmsg :=
          if dmsg0.timestamp = none ∨ dmsg0.timestamp = some 0 then
            { dmsg0 with timestamp := some t }
          else dmsg0
        match mapGet s1.mapping dmsg.type with
        | none => Except.ok { state := s1, calls := [], puts := [] }
        | some dispatchInfos =>
          Except.ok (dispatchLoop env msg t fromStorage hash dmsg pd.2
            dispatchInfos s1)

/-- Two transport messages with identical transport-level fields (content
topic, raw payload, timestamp, pubsub topic), the fields hashed by
`dispatch`. -/
def sameTransport (a b : IDecodedMessage) : Prop :=
  a.contentTopic = b.contentTopic ∧ a.payload = b.payload ∧
  a.timestamp = b.timestamp ∧ a.pubsubTopic = b.pubsubTopic

/-- The stored-message replay loop of `dispatchLocalQuery`
(part_002 lines 499-511): every locally stored message is dispatched with
`fromStorage = true`; a thrown dispatch rejects the whole loop (the calls
are awaited outside any try), leaving the remaining messages
unprocessed. -/
def dispatchLocalReplay (env : Env) :
    List IDecodedMessage → DState → DispatchResult × Bool
  | [], s => ({ state := s, calls := [], puts := [] }, false)
  | m :: rest, s =>
    match dispatch env m true s with
    | Except.error _ => ({ state := s, calls := [], puts := [] }, true)
    | Except.ok r =>
      let r2 := dispatchLocalReplay env rest r.state
      ({ state := r2.1.state, calls := r.calls ++ r2.1.calls,
         puts := r.puts ++ r2.1.puts }, r2.2)

/-- A sequence of further `dispatch` calls (message and `fromStorage`
flag), threading the state; a thrown call leaves the state unchanged
(the throw happens before any mutation). -/
def dispatchMany (env : Env) :
    List (IDecodedMessage × Bool) → DState → DState
  | [], s => s
  | (m, b) :: rest, s =>
    match dispatch env m b s with
    | Except.error _ => dispatchMany env rest s
    | Except.ok r => dispatchMany env rest r.state

/-- Folding `checkDuplicate` over a sequence of admitted hashes,
keeping only the cache (the duplicate filter as a standalone unit). -/
def admitAll (hashes : List Nat) (cache : List Nat) : List Nat :=
  hashes.foldl (fun c h => (checkDuplicate c h).2) cache

/-- The `encryptionKey` parameter of `emitTo`
(part_002 line 396): JS `undefined`, the literal `false`, raw key bytes,
or a tagged `Key` object. -/
inductive EncParam
  | undef
  | fls
  | rawKey (key : Nat)
  | keyObj (k : Key)
  deriving DecidableEq, Repr

/-- JS truthiness of the `encryptionKey` value: `undefined` and `false`
are falsy; any object, a `Uint8Array` included, is truthy. -/
def truthy : EncParam → Bool
  | EncParam.undef => false
  | EncParam.fls => false
  | EncParam.rawKey _ => true
  | EncParam.keyObj _ => true

/-- The auto-encrypt substitution of `emitTo` (part_002 lines 415-417):
when `(encryptionKey === undefined || encryptionKey !== false)` and
auto-encryption is armed, the registered auto-encrypt key replaces the
parameter; an out-of-range id yields JS `undefined`. -/
def resolveEncryptionKey (s : DState) (p : EncParam) : EncParam :=
  if (p = EncParam.undef ∨ p ≠ EncParam.fls) ∧ s.autoEncrypt = true ∧
      s.autoEncryptKeyId ≠ none then
    match s.autoEncryptKeyId with
    | some i =>
      match s.decryptionKeys[i]? with
      | some k => EncParam.keyObj k
      | none => EncParam.undef
    | none => p
  else p

/-- What encryption `emitTo` performs on the serialized payload. -/
inductive EmitEncryption
  | plaintext
  | encAsym (key : Nat)
  | encSym (key : Nat)
  deriving DecidableEq, Repr

/-- The encryption decision of `emitTo` (part_002 lines 412-434): after
the auto-encrypt substitution, a falsy key publishes plaintext; a `Key`
object selects its kind; raw key bytes default to `Asymetric`. -/
def emitEncryption (s : DState) (p0 : EncParam) : EmitEncryption :=
  let p := resolveEncryptionKey s p0
  if truthy p then
    match p with
    | EncParam.keyObj k =>
      match k.type with
      | KeyType.Asymetric => EmitEncryption.encAsym k.key
      | KeyType.Symmetric => EmitEncryption.encSym k.key
    | EncParam.rawKey kb => EmitEncryption.encAsym kb
    | _ => EmitEncryption.plaintext
  else EmitEncryption.plaintext

/-- The payload bytes `emitTo` hands to `lightPush.send`, given the
serialized message bytes and the `encryptionKey` parameter. -/
def emitToPayload (env : Env) (s : DState) (payloadArray : Bytes)
    (p0 : EncParam) : Bytes :=
  match emitEncryption s p0 with
  | EmitEncryption.plaintext => payloadArray
  | EmitEncryption.encAsym k => env.encryptEcies k payloadArray
  | EmitEncryption.encSym k => env.encryptSymmetric payloadArray k

/-! Concrete instantiations of the external collaborators and small
concrete states and messages, used to evaluate the model on explicit
inputs. -/

/-- A concrete collaborator environment: a toy polynomial hash, the
character codes as UTF-8 stand-in, ciphers that always fail to decrypt,
a JSON parse that only accepts the payload `[1]` (a message of type `T`)
and a signature recovery that always answers `addr`. -/
def env0 : Env :=
  { keccak256 := fun l => l.foldl (fun a b => a * 31 + b) 7
    toUtf8Bytes := fun s => s.toList.map Char.toNat
    decryptEcies := fun _ _ => none
    decryptSymmetric := fun _ _ => none
    encryptEcies := fun k p => k :: p
    encryptSymmetric := fun p k => p ++ [k]
    parseDispatchMessage := fun l =>
      if l = [1] then
        some { type := "T", payload := 5, timestamp := some 3,
               signature := none, signer := none }
      else none
    stringifyMessage := fun m => m.type
    verifyMessage := fun _ _ => "addr"
    now := 1000 }

/-- `env0` with one asymmetric decryption oracle: the key tagged `1`
decrypts any payload by prepending a zero byte. -/
def env3 : Env :=
  { env0 with decryptEcies := fun k p => if k = 1 then some (0 :: p) else none }

/-- A freshly constructed dispatcher state (primary content topic `ct`,
nothing registered). -/
def stw : DState :=
  { contentTopic := "ct", mapping := [], decryptionKeys := [],
    autoEncrypt := false, autoEncryptKeyId := none, msgHashes := [],
    lastDeliveredTimestamp := none, running := true }

/-- A state holding one decryption key and one registration. -/
def st1 : DState :=
  { contentTopic := "ct",
    mapping := [("T", [{ callback := { ref := 1, source := "src" },
                         verifySender := false, acceptOnlyEncrypted := false,
                         contentTopic := "ct", storeLocally := true }])],
    decryptionKeys := [{ key := 7, type := KeyType.Asymetric }],
    autoEncrypt := false, autoEncryptKeyId := none, msgHashes := [],
    lastDeliveredTimestamp := none, running := true }

/-- Closure number 1 with source text `src`. -/
def cb1 : Callback := { ref := 1, source := "src" }

/-- A distinct closure (different reference) with the same source text. -/
def cb2 : Callback := { ref := 2, source := "src" }

/-- `stw` after registering `cb1` for type `T`. -/
def st3 : DState := «on» stw "T" cb1 none none none none

/-- A well-timestamped transport message. -/
def Mw : IDecodedMessage :=
  { contentTopic := "ct", payload := [1], timestamp := some 5,
    pubsubTopic := "pt", ephemeral := false }

/-- A transport message whose payload does not parse (decode failure). -/
def Mw9 : IDecodedMessage :=
  { contentTopic := "ct9", payload := [2], timestamp := some 6,
    pubsubTopic := "pt", ephemeral := false }

/-- Another well-timestamped transport message, used for replay. -/
def Mw5 : IDecodedMessage :=
  { contentTopic := "c5", payload := [1], timestamp := some 7,
    pubsubTopic := "pt", ephemeral := false }

/-- A transport message with a missing timestamp. -/
def msgNoTs : IDecodedMessage :=
  { contentTopic := "n", payload := [], timestamp := none,
    pubsubTopic := "pt", ephemeral := false }

/-- The result of the first `dispatch env0 Mw false stw` call: the hash
is recorded, the payload parses to type `T` which has no registration. -/
def Rw : DispatchResult :=
  { state := { stw with msgHashes := [transportHash env0 Mw 5] },
    calls := [], puts := [] }

/-- The result of `dispatch env0 Mw9 false stw`: hash recorded, decode
fails, no callback. -/
def Rw9 : DispatchResult :=
  { state := { stw with msgHashes := [transportHash env0 Mw9 6] },
    calls := [], puts := [] }

/-- The result of `dispatch env0 Mw5 true stw`: hash recorded, type `T`
unknown in `stw`. -/
def Rw5 : DispatchResult :=
  { state := { stw with msgHashes := [transportHash env0 Mw5 7] },
    calls := [], puts := [] }

/-- The asymmetric key list for the decryption-order example: the failing
key `2`, the succeeding key `1`, then key `3`. -/
def keys3 : List Key :=
  [{ key := 2, type := KeyType.Asymetric },
   { key := 1, type := KeyType.Asymetric },
   { key := 3, type := KeyType.Asymetric }]

/-- A message carrying the empty string as its signature and a claimed
signer that the (constant) recovery function returns. -/
def dmsg4 : IDispatchMessage :=
  { type := "T", payload := 0, timestamp := none,
    signature := some "", signer := some "addr" }

/-- A message with a nonempty signature and the matching claimed
signer. -/
def dmsgGood : IDispatchMessage :=
  { type := "T", payload := 0, timestamp := none,
    signature := some "sig", signer := some "addr" }

/-! Helper lemmas. -/

theorem mem_checkDuplicate (c : List Nat) (h : Nat) :
    h ∈ (checkDuplicate c h).2 := by
  unfold checkDuplicate
  by_cases hm : h ∈ c
  · simp [hm]
  · simp [hm]

theorem checkDuplicate_subset (c : List Nat) (h x : Nat) (hx : x ∈ c) :
    x ∈ (checkDuplicate c h).2 := by
  unfold checkDuplicate
  by_cases hm : h ∈ c <;> simp [hm, hx]

theorem dispatchLoop_msgHashes (env : Env) (msg : IDecodedMessage) (t : Nat)
    (b : Bool) (hash : Nat) (dmsg : IDispatchMessage) (enc : Bool) :
    ∀ (infos : List DispachInfo) (s : DState),
      (dispatchLoop env msg t b hash dmsg enc infos s).state.msgHashes =
        s.msgHashes := by
  intro infos
  induction infos with
  | nil => intro s; rfl
  | cons di rest ih =>
    intro s
    unfold dispatchLoop
    split
    · exact ih s
    · split
      · exact ih s
      · split
        · exact ih s
        · simp [ih]

theorem dispatchLoop_storage_no_puts (env : Env) (msg : IDecodedMessage)
    (t : Nat) (hash : Nat) (dmsg : IDispatchMessage) (enc : Bool) :
    ∀ (infos : List DispachInfo) (s : DState),
      (dispatchLoop env msg t true hash dmsg enc infos s).puts = [] := by
  intro infos
  induction infos with
  | nil => intro s; rfl
  | cons di rest ih =>
    intro s
    unfold dispatchLoop
    split
    · exact ih s
    · split
      · exact ih s
      · split
        · exact ih s
        · simp [ih]

theorem dispatch_error_timestamp (env : Env) (msg : IDecodedMessage)
    (b : Bool) (s : DState) (e : JsError)
    (h : dispatch env msg b s = Except.error e) : msg.timestamp = none := by
  cases ht : msg.timestamp with
  | none => rfl
  | some t =>
    exfalso
    unfold dispatch at h
    rw [ht] at h
    simp only [] at h
    split at h
    · cases h
    · split at h
      · cases h
      · split at h <;> cases h

theorem dispatch_ok_some_timestamp (env : Env) (msg : IDecodedMessage)
    (b : Bool) (s : DState) (r : DispatchResult)
    (h : dispatch env msg b s = Except.ok r) : ∃ t, msg.timestamp = some t := by
  cases ht : msg.timestamp with
  | none =>
    exfalso
    unfold dispatch at h
    rw [ht] at h
    cases h
  | some t => exact ⟨t, rfl⟩

theorem dispatch_cases (env : Env) (msg : IDecodedMessage) (b : Bool)
    (s : DState) (r : DispatchResult)
    (h : dispatch env msg b s = Except.ok r) :
    ∃ t, msg.timestamp = some t ∧
      r.state.msgHashes =
        (checkDuplicate s.msgHashes (transportHash env msg t)).2 ∧
      (b = true → r.puts = []) := by
  obtain ⟨t, ht⟩ := dispatch_ok_some_timestamp env msg b s r h
  refine ⟨t, ht, ?_⟩
  unfold dispatch at h
  rw [ht] at h
  simp only [] at h
  split at h
  · injection h with h2
    subst h2
    exact ⟨rfl, fun _ => rfl⟩
  · split at h
    · injection h with h2
      subst h2
      exact ⟨rfl, fun _ => rfl⟩
    · split at h
      · injection h with h2
        subst h2
        exact ⟨rfl, fun _ => rfl⟩
      · injection h with h2
        subst h2
        constructor
        · rw [dispatchLoop_msgHashes]
        · intro hb
          subst hb
          rw [dispatchLoop_storage_no_puts]

theorem dispatch_eq_of_mem (env : Env) (msg : IDecodedMessage) (t : Nat)
    (s : DState) (b : Bool) (ht : msg.timestamp = some t)
    (hmem : transportHash env msg t ∈ s.msgHashes) :
    dispatch env msg b s =
      Except.ok { state := s, calls := [], puts := [] } := by
  unfold dispatch
  rw [ht]
  simp [checkDuplicate, hmem]

theorem transportHash_congr (env : Env) (a b : IDecodedMessage) (t : Nat)
    (h : sameTransport a b) : transportHash env a t = transportHash env b t := by
  obtain ⟨h1, h2, h3, h4⟩ := h
  unfold transportHash
  rw [h1, h2, h4]

theorem dispatch_second_aux (env : Env) (M M2 : IDecodedMessage)
    (b b2 : Bool) (s : DState) (r : DispatchResult)
    (h1 : dispatch env M b s = Except.ok r) (hs : sameTransport M M2) :
    dispatch env M2 b2 r.state =
      Except.ok { state := r.state, calls := [], puts := [] } := by
  obtain ⟨t, ht, hmh, _⟩ := dispatch_cases env M b s r h1
  have ht2 : M2.timestamp = some t := hs.2.2.1 ▸ ht
  have hmem : transportHash env M t ∈ r.state.msgHashes := by
    rw [hmh]; exact mem_checkDuplicate _ _
  have hmem2 : transportHash env M2 t ∈ r.state.msgHashes := by
    rw [← transportHash_congr env M M2 t hs]; exact hmem
  exact dispatch_eq_of_mem env M2 t r.state b2 ht2 hmem2

theorem dispatchMany_mem (env : Env) (l : List (IDecodedMessage × Bool))
    (s : DState) (x : Nat) (hx : x ∈ s.msgHashes) :
    x ∈ (dispatchMany env l s).msgHashes := by
  induction l generalizing s with
  | nil => exact hx
  | cons p rest ih =>
    obtain ⟨m, b⟩ := p
    unfold dispatchMany
    cases hd : dispatch env m b s with
    | error e => exact ih s hx
    | ok r =>
      apply ih
      obtain ⟨t, ht, hmh, _⟩ := dispatch_cases env m b s r hd
      rw [hmh]
      exact checkDuplicate_subset _ _ _ hx

theorem decrypt_all_fail (env : Env) (payload : Bytes) :
    ∀ keys : List Key, (∀ k ∈ keys, tryDecryptKey env k payload = none) →
      decrypt env keys payload = (payload, false) := by
  intro keys
  induction keys with
  | nil => intro _; rfl
  | cons k rest ih =>
    intro hall
    unfold decrypt
    rw [hall k (List.mem_cons_self k rest)]
    exact ih fun k2 hk2 => hall k2 (List.mem_cons_of_mem k hk2)

theorem decrypt_skip_failures (env : Env) (payload : Bytes) :
    ∀ (pre : List Key) (k : Key) (post : List Key) (buf : Bytes),
      (∀ k2 ∈ pre, tryDecryptKey env k2 payload = none) →
      tryDecryptKey env k payload = some buf →
      decrypt env (pre ++ k :: post) payload = (buf, true) := by
  intro pre
  induction pre with
  | nil =>
    intro k post buf _ hsome
    rw [List.nil_append]
    unfold decrypt
    rw [hsome]
  | cons p pre2 ih =>
    intro k post buf hpre hsome
    have hp : tryDecryptKey env p payload = none :=
      hpre p (List.mem_cons_self p pre2)
    rw [List.cons_append]
    unfold decrypt
    rw [hp]
    exact ih k post buf (fun k2 hk2 => hpre k2 (List.mem_cons_of_mem p hk2)) hsome

theorem admitAll_nodup (l : List Nat) :
    ∀ cache : List Nat, (cache ++ l).Nodup → admitAll l cache = cache ++ l := by
  induction l with
  | nil => intro cache _; simp [admitAll]
  | cons a rest ih =>
    intro cache h
    have ha : a ∉ cache := fun hmem =>
      (List.nodup_append.mp h).2.2 hmem (List.mem_cons_self a rest)
    have step : (checkDuplicate cache a).2 = cache ++ [a] := by
      unfold checkDuplicate
      simp [ha]
    have h2 : ((cache ++ [a]) ++ rest).Nodup := by
      simpa [List.append_assoc] using h
    have := ih (cache ++ [a]) h2
    unfold admitAll at this ⊢
    simp only [List.foldl_cons, step]
    simpa [List.append_assoc] using this

theorem mapGet_mapSet_self (m : List (String × List DispachInfo))
    (k : String) (v : List DispachInfo) : mapGet (mapSet m k v) k = some v := by
  induction m with
  | nil => simp [mapSet, mapGet]
  | cons p rest ih =>
    obtain ⟨k2, v2⟩ := p
    by_cases hk : k2 = k
    · subst hk
      simp [mapSet, mapGet]
    · simp [mapSet, mapGet, hk, ih]

theorem on_registers_source (s : DState) (typ : String) (cb : Callback)
    (v a : Option Bool) (ct : Option String) (sl : Option Bool) :
    ∃ infos, mapGet («on» s typ cb v a ct sl).mapping typ = some infos ∧
      (infos.find? fun di => decide (di.callback.source = cb.source)).isSome := by
  unfold «on»
  cases hg : mapGet s.mapping typ with
  | none =>
    simp only [hg, mapGet_mapSet_self, Option.getD_some, List.find?_nil,
      Option.isSome_none, Bool.false_eq_true, if_false, List.nil_append]
    exact ⟨_, rfl, by simp [List.find?]⟩
  | some infos =>
    simp only [hg, Option.getD_some]
    by_cases hf : (infos.find? fun di =>
        decide (di.callback.source = cb.source)).isSome
    · rw [if_pos hf]
      exact ⟨infos, hg, hf⟩
    · rw [if_neg hf]
      refine ⟨_, mapGet_mapSet_self _ _ _, ?_⟩
      rw [List.find?_append]
      rw [Option.not_isSome_iff_eq_none.mp hf]
      simp [List.find?]

theorem getElem?_concat_self (l : List Key) (a : Key) :
    (l ++ [a])[l.length]? = some a := by
  induction l with
  | nil => rfl
  | cons x xs ih => simp [ih]

/-! Claim theorems. -/

/-- C1: once `dispatch` has run on a decoded transport message, a second
`dispatch` call on a message with the same transport-level fields
(content topic, raw payload, timestamp, pubsub topic) returns at the
duplicate check: the state is unchanged and no registered callback and no
store write happens in the second call, so each matching callback runs at
most once across the two calls. -/
theorem dispatch_duplicate_second_call_noop (env : Env)
    (M M2 : IDecodedMessage) (b b2 : Bool) (s : DState) (r : DispatchResult)
    (h1 : dispatch env M b s = Except.ok r) (hs : sameTransport M M2) :
    dispatch env M2 b2 r.state =
      Except.ok { state := r.state, calls := [], puts := [] } :=
  dispatch_second_aux env M M2 b b2 s r h1 hs

/-- Witness for C1 at a concrete input: the second dispatch of `Mw`
returns at the duplicate check. -/
theorem dispatch_duplicate_second_call_noop_w :
    dispatch env0 Mw true Rw.state =
      Except.ok { state := Rw.state, calls := [], puts := [] } :=
  dispatch_duplicate_second_call_noop env0 Mw Mw false true stw Rw rfl
    ⟨rfl, rfl, rfl, rfl⟩

/-- C2: the claim states the intended bounded cache; the code never
evicts.  Folding `checkDuplicate` over any duplicate-free hash sequence
from the empty cache retains every hash (the slice computed in the
eviction branch is discarded by the source), so the cache grows past the
2000-entry threshold without bound. -/
theorem checkDuplicate_never_evicts (l : List Nat) (h : l.Nodup) :
    admitAll l [] = l := by
  have h2 := admitAll_nodup l [] (by simpa using h)
  simpa using h2

/-- Witness for C2: admitting 2002 pairwise-distinct hashes leaves all
2002 in the cache, exceeding the 2000-entry threshold. -/
theorem checkDuplicate_never_evicts_w :
    admitAll (List.range 2002) [] = List.range 2002 ∧
      (List.range 2002).length = 2002 :=
  ⟨checkDuplicate_never_evicts (List.range 2002) (List.nodup_range 2002),
   by simp⟩

/-- C3: the decrypt step is total and tries the registered keys in
registration order: if every key fails (the empty list included) the
original bytes come back unchanged with `wasEncrypted = false`; the first
key that decrypts wins, the result is its output with
`wasEncrypted = true`, independent of the keys after it. -/
theorem decrypt_order_first_wins (env : Env) (keys : List Key)
    (payload : Bytes) :
    ((∀ k ∈ keys, tryDecryptKey env k payload = none) →
      decrypt env keys payload = (payload, false))
    ∧ (∀ (pre : List Key) (k : Key) (post : List Key) (buf : Bytes),
        keys = pre ++ k :: post →
        (∀ k2 ∈ pre, tryDecryptKey env k2 payload = none) →
        tryDecryptKey env k payload = some buf →
        decrypt env keys payload = (buf, true)) := by
  constructor
  · exact decrypt_all_fail env payload keys
  · intro pre k post buf hk hpre hsome
    subst hk
    exact decrypt_skip_failures env payload pre k post buf hpre hsome

/-- Witness for C3: with three keys of which the second decrypts, the
second key wins; with only the failing key the payload passes through
as plaintext. -/
theorem decrypt_order_first_wins_w :
    decrypt env3 keys3 [5] = ([0, 5], true) ∧
      decrypt env3 [{ key := 2, type := KeyType.Asymetric }] [5] =
        ([5], false) :=
  ⟨(decrypt_order_first_wins env3 keys3 [5]).2
      [{ key := 2, type := KeyType.Asymetric }]
      { key := 1, type := KeyType.Asymetric }
      [{ key := 3, type := KeyType.Asymetric }] [0, 5] rfl (by decide) rfl,
   (decrypt_order_first_wins env3
      [{ key := 2, type := KeyType.Asymetric }] [5]).1 (by decide)⟩

/-- C4 counterexample: the empty string is a present signature field, yet
`verifySender` returns false even when the recovered signer equals the
claimed signer, refuting the claimed iff for present signatures. -/
theorem verifySender_empty_signature_cex :
    ¬ (verifySender env0 dmsg4 = true ↔
        some (env0.verifyMessage
          (env0.stringifyMessage { dmsg4 with signature := none }) "") =
          dmsg4.signer) := by
  decide

/-- C4 amended: `verifySender` returns false when the signature field is
absent or the empty string (JS falsiness); for a nonempty signature it
returns true iff the signer recovered from the canonical JSON of the
message with the signature field cleared equals the claimed signer. -/
theorem verifySender_spec (env : Env) (dmsg : IDispatchMessage) :
    ((dmsg.signature = none ∨ dmsg.signature = some "") →
      verifySender env dmsg = false)
    ∧ (∀ sig, dmsg.signature = some sig → sig ≠ "" →
        (verifySender env dmsg = true ↔
          some (env.verifyMessage
            (env.stringifyMessage { dmsg with signature := none }) sig) =
            dmsg.signer)) := by
  constructor
  · rintro (h | h)
    · unfold verifySender
      rw [h]
    · unfold verifySender
      rw [h]
      simp
  · intro sig hsig hne
    unfold verifySender
    rw [hsig]
    simp only [if_neg hne]
    by_cases he : some (env.verifyMessage
        (env.stringifyMessage { dmsg with signature := none }) sig) =
        dmsg.signer
    · simp [he]
    · simp [he]

/-- Witness for C4 at concrete inputs: the empty signature fails closed,
and a nonempty signature verifies iff recovery matches. -/
theorem verifySender_spec_w :
    verifySender env0 dmsg4 = false ∧
      (verifySender env0 dmsgGood = true ↔
        some (env0.verifyMessage
          (env0.stringifyMessage { dmsgGood with signature := none }) "sig") =
          dmsgGood.signer) :=
  ⟨(verifySender_spec env0 dmsg4).1 (Or.inr rfl),
   (verifySender_spec env0 dmsgGood).2 "sig" rfl (by decide)⟩

/-- C5: stored messages replayed through the `dispatchLocalQuery` loop
(every `dispatch` call with `fromStorage = true`) never reach
`store.set`: local replay leaves the persisted contents unchanged. -/
theorem replay_fromStorage_no_puts :
    (∀ (env : Env) (msgs : List IDecodedMessage) (s : DState),
      (dispatchLocalReplay env msgs s).1.puts = [])
    ∧ (∀ (env : Env) (M : IDecodedMessage) (s : DState) (r : DispatchResult),
        dispatch env M true s = Except.ok r → r.puts = []) := by
  have h2 : ∀ (env : Env) (M : IDecodedMessage) (s : DState)
      (r : DispatchResult), dispatch env M true s = Except.ok r →
      r.puts = [] := by
    intro env M s r h
    obtain ⟨t, ht, hmh, hp⟩ := dispatch_cases env M true s r h
    exact hp rfl
  refine ⟨?_, h2⟩
  intro env msgs
  induction msgs with
  | nil => intro s; rfl
  | cons m rest ih =>
    intro s
    unfold dispatchLocalReplay
    cases hd : dispatch env m true s with
    | error e => rfl
    | ok r => simp [ih, h2 env m s r hd]

/-- Witness for C5: a concrete two-message replay issues no store write,
and the concrete single dispatch with `fromStorage = true` has an empty
put list. -/
theorem replay_fromStorage_no_puts_w :
    (dispatchLocalReplay env0 [Mw5, Mw5] stw).1.puts = [] ∧ Rw5.puts = [] :=
  ⟨replay_fromStorage_no_puts.1 env0 [Mw5, Mw5] stw,
   replay_fromStorage_no_puts.2 env0 Mw5 stw Rw5 rfl⟩

/-- C6: the claim says dispatch never raises for any input, missing
timestamps included; the code evaluates `msg.timestamp!.toString()`
before the guarded try block, so a missing transport timestamp raises a
TypeError to the caller (first conjunct, evaluated at a concrete input).
For every message with a present timestamp dispatch returns normally
whatever else fails (second conjunct). -/
theorem dispatch_missing_timestamp_raises :
    dispatch env0 msgNoTs false stw = Except.error JsError.typeError
    ∧ ∀ (env : Env) (msg : IDecodedMessage) (b : Bool) (s : DState) (t : Nat),
        msg.timestamp = some t → ∃ r, dispatch env msg b s = Except.ok r := by
  constructor
  · rfl
  · intro env msg b s t ht
    cases hE : dispatch env msg b s with
    | ok r => exact ⟨r, rfl⟩
    | error e =>
      rw [dispatch_error_timestamp env msg b s e hE] at ht
      cases ht

/-- Witness for C6: a message with a present timestamp dispatches
normally. -/
theorem dispatch_missing_timestamp_raises_w :
    ∃ r, dispatch env0 Mw false stw = Except.ok r :=
  dispatch_missing_timestamp_raises.2 env0 Mw false stw 5 rfl

/-- C7 counterexample: from the concrete state `st1` holding one
decryption key and one registration, `stop` empties the registration
table but not the key list, refuting the claim at this input. -/
theorem stop_keeps_decryption_keys_cex :
    ¬ ((stop st1).mapping = [] ∧ (stop st1).decryptionKeys = []) := by
  decide

/-- C7 amended: after `stop` the registration table and the
duplicate-hash cache are empty, and the decryption key list is exactly
what it was before the call (it is not cleared). -/
theorem stop_clears_mapping_and_hashes_only (s : DState) :
    (stop s).mapping = [] ∧ (stop s).msgHashes = [] ∧
      (stop s).decryptionKeys = s.decryptionKeys :=
  ⟨rfl, rfl, rfl⟩

/-- C8 counterexample: `cb1` and `cb2` are distinct closures (different
references) with identical source text; registering `cb2` after `cb1`
for the same type leaves the state unchanged and `cb2` is nowhere in the
routing table, refuting that two such closures are both registered. -/
theorem on_identical_source_conflated_cex :
    cb1.ref ≠ cb2.ref ∧ cb1.source = cb2.source ∧
      «on» st3 "T" cb2 none none none none = st3 ∧
      (∀ di ∈ (mapGet st3.mapping "T").getD [], di.callback.ref ≠ cb2.ref) := by
  decide

/-- C8 amended: registering a callback for a type is a no-op whenever a
callback with the same stringified source text is already registered for
that type; in particular registering the same callback twice is a no-op,
but two distinct closures with identical source text are conflated and
only the first is kept. -/
theorem on_same_source_noop (s : DState) (typ : String) (cb cb2a : Callback)
    (v a : Option Bool) (ct : Option String) (sl : Option Bool)
    (v2 a2 : Option Bool) (ct2 : Option String) (sl2 : Option Bool)
    (hsrc : cb2a.source = cb.source) :
    «on» («on» s typ cb v a ct sl) typ cb2a v2 a2 ct2 sl2 =
      «on» s typ cb v a ct sl := by
  obtain ⟨infos, hg, hf⟩ := on_registers_source s typ cb v a ct sl
  generalize hS : «on» s typ cb v a ct sl = s1 at hg ⊢
  unfold «on»
  simp only [hg, Option.getD_some, hsrc]
  rw [if_pos hf]

/-- Witness for C8: registering the same callback twice is a no-op. -/
theorem on_same_source_noop_w :
    «on» («on» stw "T" cb1 none none none none) "T" cb1 none none none
      none = «on» stw "T" cb1 none none none none :=
  on_same_source_noop stw "T" cb1 cb1 none none none none none none none
    none rfl

/-- C9: a normally returning dispatch that delivered to no callback
(decode failure, unknown type, or every registration check failing) still
recorded the transport hash before decoding, so any later dispatch of a
message with the same transport-level fields — after any further sequence
of dispatch calls — is rejected at the duplicate check and delivered to
no callback. -/
theorem dispatch_no_delivery_still_deduplicated (env : Env)
    (M M2 : IDecodedMessage) (b b2 : Bool) (s : DState) (r : DispatchResult)
    (others : List (IDecodedMessage × Bool))
    (h1 : dispatch env M b s = Except.ok r) (_hnc : r.calls = [])
    (hs : sameTransport M M2) :
    dispatch env M2 b2 (dispatchMany env others r.state) =
      Except.ok { state := dispatchMany env others r.state,
                  calls := [], puts := [] } := by
  obtain ⟨t, ht, hmh, _⟩ := dispatch_cases env M b s r h1
  have ht2 : M2.timestamp = some t := hs.2.2.1 ▸ ht
  have hmem : transportHash env M2 t ∈ r.state.msgHashes := by
    rw [← transportHash_congr env M M2 t hs, hmh]
    exact mem_checkDuplicate _ _
  exact dispatch_eq_of_mem env M2 t _ b2 ht2
    (dispatchMany_mem env others r.state _ hmem)

/-- Witness for C9: the first dispatch of `Mw9` fails to decode (no
callback); after one further dispatch call, the redelivery of `Mw9` is
rejected as a duplicate. -/
theorem dispatch_no_delivery_still_deduplicated_w :
    dispatch env0 Mw9 true (dispatchMany env0 [(msgNoTs, false)] Rw9.state) =
      Except.ok { state := dispatchMany env0 [(msgNoTs, false)] Rw9.state,
                  calls := [], puts := [] } :=
  dispatch_no_delivery_still_deduplicated env0 Mw9 Mw9 false true stw Rw9
    [(msgNoTs, false)] rfl rfl ⟨rfl, rfl, rfl, rfl⟩

/-- C10: after `registerKey(key, type, autoEncrypt = true)` on a state
not already holding that key, `emitTo` with `encryptionKey === false`
publishes the serialized payload as plaintext, while
`encryptionKey === undefined` substitutes the registered auto-encrypt
key and encrypts with it (by its kind). -/
theorem emitTo_autoEncrypt_sentinels (env : Env) (s : DState) (key : Nat)
    (typ : KeyType) (arr : Bytes)
    (hnew : s.decryptionKeys.find?
      (fun k => decide (k.key = key ∧ k.type = typ)) = none) :
    emitToPayload env (registerKey s key typ true) arr EncParam.fls = arr
    ∧ emitEncryption (registerKey s key typ true) EncParam.fls =
        EmitEncryption.plaintext
    ∧ emitEncryption (registerKey s key typ true) EncParam.undef =
        (match typ with
         | KeyType.Asymetric => EmitEncryption.encAsym key
         | KeyType.Symmetric => EmitEncryption.encSym key) := by
  have hreg : registerKey s key typ true =
      { s with decryptionKeys := s.decryptionKeys ++ [{ key := key, type := typ }],
               autoEncrypt := true,
               autoEncryptKeyId := some s.decryptionKeys.length } := by
    unfold registerKey
    rw [hnew]
    simp
  have hfls : emitEncryption (registerKey s key typ true) EncParam.fls =
      EmitEncryption.plaintext := by
    rw [hreg]
    unfold emitEncryption resolveEncryptionKey
    simp [truthy]
  refine ⟨?_, hfls, ?_⟩
  · unfold emitToPayload
    rw [hfls]
  · rw [hreg]
    cases typ <;>
      simp [emitEncryption, resolveEncryptionKey, truthy, getElem?_concat_self]

/-- Witness for C10: registering key 7 as the auto-encrypt key on the
fresh state, the `false` sentinel publishes plaintext and `undefined`
encrypts asymmetrically with key 7. -/
theorem emitTo_autoEncrypt_sentinels_w :
    emitToPayload env0 (registerKey stw 7 KeyType.Asymetric true) [9]
        EncParam.fls = [9]
    ∧ emitEncryption (registerKey stw 7 KeyType.Asymetric true)
        EncParam.fls = EmitEncryption.plaintext
    ∧ emitEncryption (registerKey stw 7 KeyType.Asymetric true)
        EncParam.undef = EmitEncryption.encAsym 7 :=
  emitTo_autoEncrypt_sentinels env0 stw 7 KeyType.Asymetric [9] rfl

end WakuDispatcher
